import Mathlib

/-!
# Verification of the `time2freq` audio core (`src/audio.rs`, `src/resources.rs`)

Shallow embedding of the playback/analysis pipeline:

* `RingBuffer` models `rtrb::RingBuffer<f32>` as a fixed-capacity FIFO list
  (front = oldest sample).  `push` mirrors `Producer::push` (fails when full),
  `readChunk2` mirrors `Consumer::read_chunk(2)` (fails when fewer than two
  samples are readable).  `f32` samples are modelled as exact rationals `ℚ`.
* The device output callback (`AudioPlayer::new`, `build_output_stream`
  closure) is `callbackLoop`.
* Session construction (`AudioPlayer::new`) is `latencyFrames`,
  `latencySamples`, `prefill`, `initDeviceRing`, `initAnalysisRing`.
* The decode worker thread (`AudioPlayer::new`, `std::thread::spawn` closure)
  is `decodeTrack` / `runWorker` / `resampleStep` / `stepAction`.
* The level query (`AudioPlayer::rms`) is `rmsDrain` / `rmsCall`.
-/

namespace Time2Freq

/-- Model of `rtrb::RingBuffer<f32>`: fixed capacity, FIFO contents (front = oldest). -/
structure RingBuffer where
  cap : Nat
  data : List ℚ
  deriving Repr, DecidableEq

/-- Model of `rtrb::Producer::push`: succeeds iff the ring is not full, appending the
sample at the back. -/
def RingBuffer.push (r : RingBuffer) (s : ℚ) : Option RingBuffer :=
  if r.data.length < r.cap then some ⟨r.cap, r.data ++ [s]⟩ else none

/-- Model of `rtrb::Consumer::read_chunk(2)`: atomically claims two samples from the
front, failing when fewer than two are readable. -/
def RingBuffer.readChunk2 (r : RingBuffer) : Option (ℚ × ℚ × RingBuffer) :=
  match r.data with
  | a :: b :: rest => some (a, b, ⟨r.cap, rest⟩)
  | _ => none

/-! ## Session construction (`AudioPlayer::new`, src/audio.rs lines 45–63) -/

/-- Computes `(latency_ms as f32 * device_sample_rate as f32 / 1000.0).round() as u32`,
with `f32` arithmetic modelled exactly (round half away from zero, both
factors nonnegative, hence round half up). -/
def latencyFrames (latencyMs deviceRate : Nat) : Nat :=
  (latencyMs * deviceRate + 500) / 1000

/-- Computes `latency_samples = (latency_frames * device_channels) as usize`. -/
def latencySamples (latencyMs deviceRate channels : Nat) : Nat :=
  latencyFrames latencyMs deviceRate * channels

/-- The construction loop `for _ in 0..latency_samples { device_send.push(0.0)?; }`:
each failed push aborts construction (the `?`). -/
def prefill : Nat → RingBuffer → Option RingBuffer
  | 0, r => some r
  | n + 1, r =>
    match r.push 0 with
    | some r' => prefill n r'
    | none => none

/-- The playback ring after construction: capacity `latency_samples * 2`,
pre-filled with `latency_samples` zeros. -/
def initDeviceRing (latencyMs deviceRate channels : Nat) : Option RingBuffer :=
  prefill (latencySamples latencyMs deviceRate channels)
    ⟨latencySamples latencyMs deviceRate channels * 2, []⟩

/-- The analysis ring after construction: same capacity, empty (the
`analysis_send.push(0.0)` line is commented out in the source). -/
def initAnalysisRing (latencyMs deviceRate channels : Nat) : RingBuffer :=
  ⟨latencySamples latencyMs deviceRate channels * 2, []⟩

/-! ## Device output callback (src/audio.rs lines 197–222)

For each frame (`data.chunks_mut(device_channels)`) the callback tries
`device_recv.read_chunk(2)`; on success it writes the two popped samples, on
failure it sets `input_fell_behind` and writes two zeros.  After the loop one
warning is logged iff the flag is set.  `failedPops` counts executions of the
failure branch (the flag in the source is the Boolean `failedPops ≠ 0`). -/

structure CallbackResult where
  frames : List (ℚ × ℚ)
  ring : RingBuffer
  failedPops : Nat
  deriving Repr, DecidableEq

/-- The callback body, processing `n` output frames. -/
def callbackLoop (ring : RingBuffer) : Nat → CallbackResult
  | 0 => ⟨[], ring, 0⟩
  | n + 1 =>
    match ring.readChunk2 with
    | some (a, b, ring') =>
      let rest := callbackLoop ring' n
      ⟨(a, b) :: rest.frames, rest.ring, rest.failedPops⟩
    | none =>
      let rest := callbackLoop ring n
      ⟨(0, 0) :: rest.frames, rest.ring, rest.failedPops + 1⟩

/-- Value of `input_fell_behind` at the end of the callback. -/
def CallbackResult.fellBehind (r : CallbackResult) : Bool :=
  r.failedPops ≠ 0

/-- Number of underrun log events emitted by one callback invocation:
`log::warn!("input fell behind")` runs once iff the flag is set. -/
def CallbackResult.underrunEvents (r : CallbackResult) : Nat :=
  if r.fellBehind then 1 else 0

/-! ## Track reader (`AudioFile::next_sample`, src/resources.rs lines 65–85)

A packet either decodes to a block of interleaved samples, belongs to a
non-default track (`Ok(None)`), fails with a recoverable
`symphonia DecodeError` (`Ok(None)`), or fails with any other decoder error
(`Err`).  An exhausted packet list models `format.next_packet()` failing
(end of stream), which the `?` propagates as `Err`. -/

inductive Packet where
  | good (samples : List ℚ)
  | otherTrack
  | recoverable
  | corrupt
  deriving Repr, DecidableEq

/-- Result of one `next_sample` call. -/
inductive NextSampleResult where
  | sample (s : List ℚ)
  | none_
  | err
  deriving Repr, DecidableEq

/-- Model of `AudioFile::next_sample`, consuming one packet. -/
def nextSample : List Packet → NextSampleResult × List Packet
  | [] => (.err, [])
  | .good s :: rest => (.sample s, rest)
  | .otherTrack :: rest => (.none_, rest)
  | .recoverable :: rest => (.none_, rest)
  | .corrupt :: rest => (.err, rest)

/-! ## Decode worker thread (src/audio.rs lines 68–194) -/

/-- The worker's per-track loop (src/audio.rs lines 116–190): blocks produced
by successive `next_sample` calls, stopping at the first `Ok(None)` or `Err`
(both `break`).  The loop contains no receive on the command channel, so the
blocks are independent of any commands pending in the queue. -/
def decodeTrack : List Packet → List (List ℚ)
  | [] => []
  | .good s :: rest => s :: decodeTrack rest
  | .otherTrack :: _ => []
  | .recoverable :: _ => []
  | .corrupt :: _ => []

/-- Outcome of `AudioFile::open` for a given path (paths are modelled as
naturals): either a packet stream or a failure (unreadable file, no default
track, no codec — all surface as `Err`, and an unsupported container panics
inside `open` itself via `.unwrap()` on the probe). -/
inductive OpenResult where
  | ok (packets : List Packet)
  | fail
  deriving Repr, DecidableEq

/-- Observable outcome of the worker thread: the tracks it decoded (path and
blocks, in order), whether the thread panicked, and the commands left
unprocessed at the panic. -/
structure WorkerOutcome where
  trace : List (Nat × List (List ℚ))
  crashed : Bool
  remaining : List Nat
  deriving Repr, DecidableEq

/-- The worker's command loop `while let Ok(song) = rx_play_song.recv()`
(src/audio.rs lines 69–193), run over the queued commands in arrival order.
`AudioFile::open(song).unwrap()` panics on failure, terminating the thread
with the rest of the queue unprocessed. -/
def runWorker (lib : Nat → OpenResult) : List Nat → WorkerOutcome
  | [] => ⟨[], false, []⟩
  | song :: rest =>
    match lib song with
    | .fail => ⟨[], true, rest⟩
    | .ok packets =>
      let o := runWorker lib rest
      ⟨(song, decodeTrack packets) :: o.trace, o.crashed, o.remaining⟩

/-- All samples the worker pushes toward the rings, in order. -/
def WorkerOutcome.samples (o : WorkerOutcome) : List ℚ :=
  o.trace.flatMap (fun t => t.2.flatMap id)

/-! ## Resampler path (src/audio.rs lines 114–164)

When the track rate differs from the device rate, decoded samples are
accumulated in `audio_buf`; once `audio_buf.len() >= chunk_size`
(after `let chunk_size = audio.channels() * chunk_size;`, i.e.
`channels * chunk_frames` interleaved samples) the first `chunk_size` samples
are drained, de-interleaved into `buf_in`, processed by
`rubato::SincFixedIn::process_into_buffer` (modelled as the abstract function
`interp` on per-channel buffers), and the output re-interleaved. -/

/-- The fill loop `for _ in 0..chunk_size / channels { for channel in .. }`:
`buf_in[c]` receives `chunk[f * channels + c]` for each frame `f`. -/
def deinterleave (channels : Nat) (xs : List ℚ) : List (List ℚ) :=
  (List.range channels).map fun c =>
    (List.range (xs.length / channels)).map fun f => xs.getD (f * channels + c) 0

/-- The output loop `for i in 0..buf_out[0].len() { for channel in .. }`. -/
def interleave (bufs : List (List ℚ)) : List ℚ :=
  (List.range (bufs.headD []).length).flatMap fun i => bufs.map fun ch => ch.getD i 0

/-- One `Ok(Some(signal))` iteration of the worker loop on the resampler path:
returns the new `audio_buf` and the output chunk, if any (`continue` — no
output — while the buffer holds fewer than `channels * chunkFrames` samples). -/
def resampleStep (channels chunkFrames : Nat)
    (interp : List (List ℚ) → List (List ℚ))
    (audioBuf signal : List ℚ) : List ℚ × Option (List ℚ) :=
  let buf := audioBuf ++ signal
  let chunkSamples := channels * chunkFrames
  if chunkSamples ≤ buf.length then
    (buf.drop chunkSamples,
      some (interleave (interp (deinterleave channels (buf.take chunkSamples)))))
  else
    (buf, none)

/-! ## Per-sample push loop (src/audio.rs lines 166–178)

For each output sample: `loop { if device_send.push(*sample).is_ok() {`
`if analysis_send.push(*sample).is_err() { } break; } sleep(..); }`.
The worker's iterations interleave with the consumers popping from the two
rings; `Action` schedules one worker iteration or one consumer pop batch, and
the traces record the samples that actually enter each ring. -/

structure PushState where
  pending : List ℚ
  dev : RingBuffer
  ana : RingBuffer
  devTrace : List ℚ
  anaTrace : List ℚ
  deriving Repr, DecidableEq

inductive Action where
  | workIter
  | drainDev (n : Nat)
  | drainAna (n : Nat)
  deriving Repr, DecidableEq

/-- One scheduled step: a worker loop iteration (one `device_send.push`
attempt; on success one `analysis_send.push` attempt whose failure is
ignored, then `break` to the next sample; on failure a sleep, leaving all
state unchanged), or a consumer removing `n` samples from a ring. -/
def stepAction (st : PushState) : Action → PushState
  | .workIter =>
    match st.pending with
    | [] => st
    | s :: rest =>
      match st.dev.push s with
      | some dev' =>
        match st.ana.push s with
        | some ana' => ⟨rest, dev', ana', st.devTrace ++ [s], st.anaTrace ++ [s]⟩
        | none => ⟨rest, dev', st.ana, st.devTrace ++ [s], st.anaTrace⟩
      | none => st
  | .drainDev n => { st with dev := ⟨st.dev.cap, st.dev.data.drop n⟩ }
  | .drainAna n => { st with ana := ⟨st.ana.cap, st.ana.data.drop n⟩ }

/-- Run a schedule of interleaved worker iterations and consumer pops. -/
def runActions (st : PushState) (acts : List Action) : PushState :=
  acts.foldl stepAction st

/-! ## Level query (`AudioPlayer::rms`, src/audio.rs lines 240–278) -/

/-- Computes `(dt.as_secs_f32() * self.sample_rate as f32).round() as usize`
(`dt` is a nonnegative duration). -/
def bufSize (dt : ℚ) (sampleRate : Nat) : Nat :=
  (round (dt * sampleRate)).toNat

/-- The drain loop
`while let Ok(chunk) = self.lvl_cons.read_chunk(2) { l.push(a²); r.push(b²);`
`if l.len() >= buf_size { break } }`, acting on the analysis ring's contents:
returns (`l`, `r`, remaining ring contents).  After pushing the `k`-th frame
the loop breaks iff `k ≥ bufSize`, i.e. it continues iff `1 < bufSize`
relative to the frames still wanted. -/
def rmsDrain : List ℚ → Nat → List ℚ × List ℚ × List ℚ
  | a :: b :: rest, n =>
    if 1 < n then
      let d := rmsDrain rest (n - 1)
      (a ^ 2 :: d.1, b ^ 2 :: d.2.1, d.2.2)
    else
      ([a ^ 2], [b ^ 2], rest)
  | data, _ => ([], [], data)

/-- The analyzer-visible state of `AudioPlayer`: the analysis ring consumer
and the stored `rms` snapshot. -/
structure AnalyzerState where
  ring : RingBuffer
  rms : ℚ × ℚ
  deriving Repr, DecidableEq

/-- Model of `AudioPlayer::rms` (the per-channel level part; the ebur128 loudness is an
external library call on the same drained frames and is not modelled):
returns the reported pair and the updated state.  The snapshot is updated to
the per-channel mean of the squared drained samples only when at least one
frame was drained (`if !l.is_empty() && !r.is_empty()`); the `.sqrt()` variant
present in the source is commented out. -/
def rmsCall (st : AnalyzerState) (sampleRate : Nat) (dt : ℚ) :
    (ℚ × ℚ) × AnalyzerState :=
  let d := rmsDrain st.ring.data (bufSize dt sampleRate)
  let newRms :=
    if d.1 = [] ∨ d.2.1 = [] then st.rms
    else (d.1.sum / d.1.length, d.2.1.sum / d.2.1.length)
  (newRms, ⟨⟨st.ring.cap, d.2.2⟩, newRms⟩)

/-- Frames drained from the analysis ring by one `rms` call. -/
def rmsFramesDrained (st : AnalyzerState) (sampleRate : Nat) (dt : ℚ) : Nat :=
  (rmsDrain st.ring.data (bufSize dt sampleRate)).1.length

/-- Mean of the squared values of a list of samples (`RMS²`). -/
def meanSq (xs : List ℚ) : ℚ :=
  (xs.map (fun x => x ^ 2)).sum / xs.length

/-- Consecutive (left, right) frames of an interleaved stereo sample list. -/
def framesOf : List ℚ → List (ℚ × ℚ)
  | a :: b :: rest => (a, b) :: framesOf rest
  | _ => []

/-! ## Auxiliary lemmas -/

/-- The function `decodeTrack` is the worker loop driven by `next_sample`. -/
lemma decodeTrack_eq_nextSample (packets : List Packet) :
    decodeTrack packets =
      match nextSample packets with
      | (.sample s, r) => s :: decodeTrack r
      | (.none_, _) => []
      | (.err, _) => [] := by
  cases packets with
  | nil => rfl
  | cons p rest => cases p <;> rfl

/-- The construction pre-fill loop succeeds and appends zeros while capacity
allows. -/
lemma prefill_zeros (n : Nat) : ∀ (c : Nat) (l : List ℚ), l.length + n ≤ c →
    prefill n ⟨c, l⟩ = some ⟨c, l ++ List.replicate n 0⟩ := by
  induction n with
  | zero => intro c l _; simp [prefill]
  | succ n ih =>
    intro c l h
    have hlt : l.length < c := by omega
    have hpush : (RingBuffer.mk c l).push 0 = some ⟨c, l ++ [0]⟩ := by
      simp [RingBuffer.push, hlt]
    rw [prefill, hpush]
    show prefill n ⟨c, l ++ [0]⟩ = _
    rw [ih c (l ++ [0]) (by simp; omega)]
    simp [List.replicate_succ, List.append_assoc]

/-- Callback on an empty ring: all frames zero, one failed pop per frame. -/
lemma callbackLoop_empty (cap : Nat) (n : Nat) :
    callbackLoop ⟨cap, []⟩ n = ⟨List.replicate n (0, 0), ⟨cap, []⟩, n⟩ := by
  induction n with
  | zero => rfl
  | succ n ih => rw [callbackLoop]; simp [RingBuffer.readChunk2, ih, List.replicate_succ]

/-- Callback on a ring holding only zeros: every emitted frame is zero. -/
lemma callbackLoop_zero_data (n : Nat) : ∀ (cap : Nat) (data : List ℚ),
    (∀ x ∈ data, x = 0) →
    (callbackLoop ⟨cap, data⟩ n).frames = List.replicate n ((0 : ℚ), (0 : ℚ)) := by
  induction n with
  | zero => intro cap data _; rfl
  | succ n ih =>
    intro cap data hz
    match data with
    | [] =>
      rw [callbackLoop]
      simp only [RingBuffer.readChunk2, List.replicate_succ]
      simpa using ih cap [] (by simp)
    | [a] =>
      rw [callbackLoop]
      simp only [RingBuffer.readChunk2, List.replicate_succ]
      simpa using ih cap [a] hz
    | a :: b :: rest =>
      have ha : a = 0 := hz a (by simp)
      have hb : b = 0 := hz b (by simp)
      rw [callbackLoop]
      simp only [RingBuffer.readChunk2, List.replicate_succ, ha, hb]
      simpa using ih cap rest (fun x hx => hz x (by simp [hx]))

/-- The callback fills every requested frame. -/
lemma callbackLoop_frames_length (n : Nat) : ∀ ring : RingBuffer,
    (callbackLoop ring n).frames.length = n := by
  induction n with
  | zero => intro ring; rfl
  | succ n ih =>
    intro ring
    rw [callbackLoop]
    cases h : ring.readChunk2 with
    | none => simp [ih]
    | some v => obtain ⟨a, b, ring'⟩ := v; simp [ih]

/-- Callback success path: with enough buffered samples every frame is the
next popped pair and no pop fails. -/
lemma callbackLoop_pop (cap : Nat) (n : Nat) : ∀ data : List ℚ,
    2 * n ≤ data.length →
    callbackLoop ⟨cap, data⟩ n =
      ⟨framesOf (data.take (2 * n)), ⟨cap, data.drop (2 * n)⟩, 0⟩ := by
  induction n with
  | zero => intro data _; simp [callbackLoop, framesOf]
  | succ n ih =>
    intro data h
    match data with
    | [] => simp at h
    | [a] => simp at h; omega
    | a :: b :: rest =>
      rw [callbackLoop]
      simp only [RingBuffer.readChunk2]
      have hr : 2 * n ≤ rest.length := by simp at h; omega
      rw [ih rest hr]
      have h2 : 2 * (n + 1) = 2 * n + 2 := by omega
      simp [h2, framesOf]

lemma framesOf_length : ∀ data : List ℚ, (framesOf data).length = data.length / 2
  | [] => by simp [framesOf]
  | [_] => by simp [framesOf]
  | a :: b :: rest => by
    simp only [framesOf, List.length_cons, framesOf_length rest]
    omega

/-- Characterization of the `rms` drain loop: it removes
`min (frames available) (max bufSize 1)` frames from the front of the ring
and squares their channels. -/
lemma rmsDrain_eq (data : List ℚ) (n : Nat) :
    rmsDrain data n =
      (((framesOf data).take (min (data.length / 2) (max n 1))).map (fun p => p.1 ^ 2),
       ((framesOf data).take (min (data.length / 2) (max n 1))).map (fun p => p.2 ^ 2),
       data.drop (2 * min (data.length / 2) (max n 1))) := by
  induction data, n using rmsDrain.induct with
  | case1 a b rest n hn ih =>
    have hk : min ((a :: b :: rest).length / 2) (max n 1) =
        min (rest.length / 2) (max (n - 1) 1) + 1 := by
      simp only [List.length_cons]
      omega
    rw [rmsDrain, if_pos hn, ih, hk]
    have hd : 2 * (min (rest.length / 2) (max (n - 1) 1) + 1) =
        2 * min (rest.length / 2) (max (n - 1) 1) + 1 + 1 := by omega
    simp [framesOf, hd, List.take_succ_cons, List.drop_succ_cons]
  | case2 a b rest n hn =>
    have hk : min ((a :: b :: rest).length / 2) (max n 1) = 1 := by
      simp only [List.length_cons]
      omega
    rw [rmsDrain, if_neg hn, hk]
    simp [framesOf]
  | case3 data n h =>
    match data with
    | [] => simp [rmsDrain, framesOf]
    | [a] => simp [rmsDrain, framesOf]
    | a :: b :: rest => exact absurd rfl (h a b rest)

/-- Number of frames the `rms` drain loop removes. -/
lemma rmsDrain_length (data : List ℚ) (n : Nat) :
    (rmsDrain data n).1.length = min (data.length / 2) (max n 1) := by
  rw [rmsDrain_eq]
  simp [framesOf_length]

lemma bufSize_zero (sampleRate : Nat) : bufSize 0 sampleRate = 0 := by
  simp [bufSize]

/-- One scheduled step preserves "analysis trace is a sublist of the playback
trace". -/
lemma stepAction_sublist {st : PushState} (h : st.anaTrace.Sublist st.devTrace)
    (a : Action) :
    (stepAction st a).anaTrace.Sublist (stepAction st a).devTrace := by
  cases a with
  | workIter =>
    cases hp : st.pending with
    | nil => simpa [stepAction, hp] using h
    | cons s rest =>
      cases hd : st.dev.push s with
      | none => simpa [stepAction, hp, hd] using h
      | some dev' =>
        cases ha : st.ana.push s with
        | some ana' =>
          simpa [stepAction, hp, hd, ha] using h.append (List.Sublist.refl [s])
        | none =>
          simp only [stepAction, hp, hd, ha]
          exact h.trans (List.sublist_append_left _ _)
  | drainDev n => simpa [stepAction] using h
  | drainAna n => simpa [stepAction] using h

lemma runActions_sublist (acts : List Action) : ∀ st : PushState,
    st.anaTrace.Sublist st.devTrace →
    (runActions st acts).anaTrace.Sublist (runActions st acts).devTrace := by
  induction acts with
  | nil => intro st h; exact h
  | cons a acts ih =>
    intro st h
    exact ih _ (stepAction_sublist h a)

/-- Helper for the level query: `rms` with at least one drained frame updates
the snapshot to the per-channel mean of the squared drained samples. -/
lemma rmsCall_nonempty (st : AnalyzerState) (sampleRate : Nat) (dt : ℚ)
    (h1 : (rmsDrain st.ring.data (bufSize dt sampleRate)).1 ≠ [])
    (h2 : (rmsDrain st.ring.data (bufSize dt sampleRate)).2.1 ≠ []) :
    (rmsCall st sampleRate dt).1 =
      ((rmsDrain st.ring.data (bufSize dt sampleRate)).1.sum /
        (rmsDrain st.ring.data (bufSize dt sampleRate)).1.length,
       (rmsDrain st.ring.data (bufSize dt sampleRate)).2.1.sum /
        (rmsDrain st.ring.data (bufSize dt sampleRate)).2.1.length) := by
  simp [rmsCall, h1, h2]

/-! ## Claim theorems -/

/-- Library of tracks for the C1 scenario: path 1 is a two-block track, path 2
a one-block track. -/
def exLibC1 : Nat → OpenResult := fun p =>
  if p = 1 then .ok [.good [10], .good [11]]
  else if p = 2 then .ok [.good [20]] else .fail

/-- C1 counterexample: with the command for track 2 already queued while
track 1 is being decoded, the worker still decodes and pushes the remainder
of track 1 (block `[11]`) before any sample of track 2 — it does not abandon
the current track (the per-track loop never reads the command channel). -/
theorem c1_counterexample :
    (runWorker exLibC1 [1, 2]).trace = [(1, [[10], [11]]), (2, [[20]])] ∧
    (runWorker exLibC1 [1, 2]).samples = [10, 11, 20] := by
  constructor <;> rfl

/-- C1 (amended): a play command received while a track is decoding is queued;
the worker finishes decoding and pushing the whole current track and only then
starts the new one, processing commands strictly in arrival order. -/
theorem c1_second_command_after_track (lib : Nat → OpenResult) (s1 s2 : Nat)
    (p1 p2 : List Packet) (h1 : lib s1 = .ok p1) (h2 : lib s2 = .ok p2) :
    (runWorker lib [s1, s2]).trace = [(s1, decodeTrack p1), (s2, decodeTrack p2)] ∧
    (runWorker lib [s1, s2]).samples =
      (decodeTrack p1).flatMap id ++ (decodeTrack p2).flatMap id := by
  constructor
  · simp [runWorker, h1, h2]
  · simp [runWorker, h1, h2, WorkerOutcome.samples]

/-- C1 witness: the amended statement at the concrete two-track library. -/
theorem c1_second_command_after_track_witness :
    (runWorker exLibC1 [1, 2]).trace =
      [(1, decodeTrack [Packet.good [10], Packet.good [11]]),
       (2, decodeTrack [Packet.good [20]])] ∧
    (runWorker exLibC1 [1, 2]).samples =
      (decodeTrack [Packet.good [10], Packet.good [11]]).flatMap id ++
        (decodeTrack [Packet.good [20]]).flatMap id :=
  c1_second_command_after_track exLibC1 1 2 _ _ rfl rfl

/-- Library for the C2 scenario: path 0 is unreadable, path 1 decodes fine. -/
def exLibC2 : Nat → OpenResult := fun p =>
  if p = 0 then .fail else .ok [.good [10]]

/-- C2: `AudioFile::open(song).unwrap()` panics on an unreadable path, killing
the worker thread: no track is decoded, the thread crashes, and the queued
follow-up command is never processed — contrasted with the same session
without the failing command, which survives and decodes. -/
theorem c2_open_failure_kills_worker :
    runWorker exLibC2 [0, 1] = ⟨[], true, [1]⟩ ∧
    runWorker exLibC2 [1] = ⟨[(1, [[10]])], false, []⟩ := by
  constructor <;> rfl

/-- C3 counterexample: a recoverable decode error packet ends the track — the
following good packet is never decoded (the claim predicts block `[5]` is
still produced), even though that packet alone decodes fine. -/
theorem c3_counterexample :
    decodeTrack [Packet.recoverable, Packet.good [5]] = [] ∧
    decodeTrack [Packet.good [5]] = [[5]] := by
  constructor <;> rfl

/-- C3 (amended): a recoverable per-packet decode error is mapped to
`Ok(None)` by `next_sample` and treated by the worker loop exactly like
end-of-stream: the track ends at the first such packet, keeping only the
blocks decoded before it. -/
theorem c3_recoverable_ends_track (blocks : List (List ℚ)) (rest : List Packet) :
    decodeTrack (blocks.map Packet.good ++ Packet.recoverable :: rest) = blocks := by
  induction blocks with
  | nil => rfl
  | cons b bs ih => simpa [decodeTrack] using ih

/-- C4 counterexample: draining the single frame `(1/2, 1/2)`, the reported
per-channel value is `1/4` — the mean of the squared samples — and it is not
the root-mean-square of the drained samples, whose square would have to equal
that mean (`(1/4)² = 1/16 ≠ 1/4`; the RMS is `1/2`). -/
theorem c4_counterexample :
    (rmsCall ⟨⟨8, [1/2, 1/2]⟩, (0, 0)⟩ 1 1).1.1 = 1/4 ∧
    ¬ (0 ≤ (rmsCall ⟨⟨8, [1/2, 1/2]⟩, (0, 0)⟩ 1 1).1.1 ∧
       (rmsCall ⟨⟨8, [1/2, 1/2]⟩, (0, 0)⟩ 1 1).1.1 ^ 2 = meanSq [1/2]) := by
  have hb : bufSize 1 1 = 1 := by simp [bufSize]
  constructor
  · simp [rmsCall, hb, rmsDrain]
    norm_num
  · simp [rmsCall, hb, rmsDrain, meanSq]
    norm_num

/-- C4 (amended): whenever the level query drains at least one frame, the
per-channel value it reports is the mean of the squares of the drained
samples (the square of the RMS — the `.sqrt()` call is commented out in the
source), so the constant-amplitude-0.5 input yields ≈ 0.125, not 0.5/√2. -/
theorem c4_mean_square (st : AnalyzerState) (sampleRate : Nat) (dt : ℚ)
    (h : 1 ≤ rmsFramesDrained st sampleRate dt) :
    (rmsCall st sampleRate dt).1 =
      (meanSq (((framesOf st.ring.data).take
          (rmsFramesDrained st sampleRate dt)).map Prod.fst),
       meanSq (((framesOf st.ring.data).take
          (rmsFramesDrained st sampleRate dt)).map Prod.snd)) := by
  have hkk : rmsFramesDrained st sampleRate dt =
      min (st.ring.data.length / 2) (max (bufSize dt sampleRate) 1) := by
    rw [rmsFramesDrained, rmsDrain_length]
  have hk1 : 1 ≤ min (st.ring.data.length / 2) (max (bufSize dt sampleRate) 1) :=
    hkk ▸ h
  have hTlen : ((framesOf st.ring.data).take
      (min (st.ring.data.length / 2) (max (bufSize dt sampleRate) 1))).length =
      min (st.ring.data.length / 2) (max (bufSize dt sampleRate) 1) := by
    rw [List.length_take, framesOf_length]
    omega
  have hdr := rmsDrain_eq st.ring.data (bufSize dt sampleRate)
  have hne1 : (rmsDrain st.ring.data (bufSize dt sampleRate)).1 ≠ [] := by
    intro hemp
    have hl := rmsDrain_length st.ring.data (bufSize dt sampleRate)
    rw [hemp] at hl
    simp at hl
    omega
  have hne2 : (rmsDrain st.ring.data (bufSize dt sampleRate)).2.1 ≠ [] := by
    rw [hdr]
    intro hemp
    have := congrArg List.length hemp
    rw [List.length_map, hTlen] at this
    simp at this
    omega
  rw [hkk, rmsCall_nonempty st sampleRate dt hne1 hne2, hdr]
  simp [meanSq, List.map_map, Function.comp_def, hTlen]

/-- C4 witness: the amended statement at the concrete one-frame ring. -/
theorem c4_mean_square_witness :
    1 ≤ rmsFramesDrained ⟨⟨8, [1/2, 1/2]⟩, (0, 0)⟩ 1 1 ∧
    (rmsCall ⟨⟨8, [1/2, 1/2]⟩, (0, 0)⟩ 1 1).1 =
      (meanSq (((framesOf (RingBuffer.mk 8 [1/2, 1/2]).data).take
          (rmsFramesDrained ⟨⟨8, [1/2, 1/2]⟩, (0, 0)⟩ 1 1)).map Prod.fst),
       meanSq (((framesOf (RingBuffer.mk 8 [1/2, 1/2]).data).take
          (rmsFramesDrained ⟨⟨8, [1/2, 1/2]⟩, (0, 0)⟩ 1 1)).map Prod.snd)) :=
  ⟨by simp [rmsFramesDrained, bufSize, rmsDrain],
   c4_mean_square ⟨⟨8, [1/2, 1/2]⟩, (0, 0)⟩ 1 1
     (by simp [rmsFramesDrained, bufSize, rmsDrain])⟩

/-- C5 counterexample: with an empty playback ring and two requested frames,
both pops fail but only one underrun event (one `log::warn!`, driven by the
single `input_fell_behind` flag) is emitted — not one event per empty pop. -/
theorem c5_counterexample :
    (callbackLoop ⟨8, []⟩ 2).failedPops = 2 ∧
    (callbackLoop ⟨8, []⟩ 2).underrunEvents = 1 ∧
    (callbackLoop ⟨8, []⟩ 2).underrunEvents ≠ (callbackLoop ⟨8, []⟩ 2).failedPops := by
  decide

/-- C5 (amended): the callback fills every requested frame and never blocks or
errors; on each failed pop it writes zero for both samples of that frame; with
enough buffered samples every frame is the next popped pair and no pop fails;
and one underrun event is raised per callback invocation that had at least one
empty pop, not one per empty pop. -/
theorem c5_callback_underruns (cap n : Nat) (data : List ℚ) :
    (callbackLoop ⟨cap, data⟩ n).frames.length = n ∧
    callbackLoop ⟨cap, []⟩ n = ⟨List.replicate n (0, 0), ⟨cap, []⟩, n⟩ ∧
    (callbackLoop ⟨cap, data⟩ n).underrunEvents =
      (if (callbackLoop ⟨cap, data⟩ n).failedPops = 0 then 0 else 1) ∧
    (2 * n ≤ data.length →
      callbackLoop ⟨cap, data⟩ n =
        ⟨framesOf (data.take (2 * n)), ⟨cap, data.drop (2 * n)⟩, 0⟩) := by
  refine ⟨callbackLoop_frames_length n _, callbackLoop_empty cap n, ?_,
    callbackLoop_pop cap n data⟩
  by_cases h : (callbackLoop ⟨cap, data⟩ n).failedPops = 0 <;>
    simp [CallbackResult.underrunEvents, CallbackResult.fellBehind, h]

/-- C5 witness: the success branch of the amended statement at a concrete
four-sample ring. -/
theorem c5_callback_underruns_witness :
    callbackLoop ⟨8, [1, 2, 3, 4]⟩ 2 = ⟨[(1, 2), (3, 4)], ⟨8, []⟩, 0⟩ :=
  (c5_callback_underruns 8 2 [1, 2, 3, 4]).2.2.2 (by decide)

/-- C6 counterexample: with 2 channels and `chunk_frames = 1`, a single frame
per channel (2 interleaved samples — fewer than the claimed `2 × chunk_frames`
samples per channel, which would be 4 interleaved samples) already makes the
resampling step emit a chunk. -/
theorem c6_counterexample :
    ((resampleStep 2 1 (fun bufs => bufs) [] [1, 2]).2).isSome = true ∧
    ([] : List ℚ).length + ([1, 2] : List ℚ).length < 2 * (2 * 1) := by
  decide

/-- C6 (amended): the resampling step accumulates input and produces no chunk
until `chunk_frames` samples per channel (`channels × chunk_frames`
interleaved samples) have accumulated; once that holds, one interpolation step
runs, yields one chunk, and exactly `channels × chunk_frames` samples leave
the accumulation buffer. -/
theorem c6_resampler_threshold (channels chunkFrames : Nat)
    (interp : List (List ℚ) → List (List ℚ)) (audioBuf signal : List ℚ) :
    ((resampleStep channels chunkFrames interp audioBuf signal).2 = none ↔
      audioBuf.length + signal.length < channels * chunkFrames) ∧
    (resampleStep channels chunkFrames interp audioBuf signal).1.length =
      (if channels * chunkFrames ≤ audioBuf.length + signal.length then
        audioBuf.length + signal.length - channels * chunkFrames
      else audioBuf.length + signal.length) := by
  by_cases h : channels * chunkFrames ≤ (audioBuf ++ signal).length
  · have h' : channels * chunkFrames ≤ audioBuf.length + signal.length := by
      simpa using h
    constructor
    · simp only [resampleStep, if_pos h]
      simp
      omega
    · simp only [resampleStep, if_pos h]
      simp [h']
  · have h' : ¬ channels * chunkFrames ≤ audioBuf.length + signal.length := by
      simpa using h
    constructor
    · simp only [resampleStep, if_neg h]
      simp
      omega
    · simp only [resampleStep, if_neg h]
      simp [h']

/-- C7 counterexample: with one frame buffered and `dt = 0`
(`buf_size = round(0 · 48000) = 0`), the level query still drains one frame —
the drain loop checks its break condition only after popping — contradicting
"drains at most `round(dt · rate)` frames, none for `dt = 0`". -/
theorem c7_counterexample :
    rmsFramesDrained ⟨⟨8, [3, 4]⟩, (0, 0)⟩ 48000 0 = 1 ∧
    bufSize 0 48000 = 0 ∧
    ¬ (rmsFramesDrained ⟨⟨8, [3, 4]⟩, (0, 0)⟩ 48000 0 ≤ bufSize 0 48000) := by
  refine ⟨?_, ?_, ?_⟩ <;>
    simp [rmsFramesDrained, rmsDrain, bufSize]

/-- C7 (amended): one level query drains at most
`max (round(dt · device_rate)) 1` frames (and never more than are available);
with `dt = 0` and a non-empty analysis ring it drains exactly one frame, not
zero. -/
theorem c7_drain_bound (st : AnalyzerState) (sampleRate : Nat) (dt : ℚ) :
    rmsFramesDrained st sampleRate dt ≤ max (bufSize dt sampleRate) 1 ∧
    2 * rmsFramesDrained st sampleRate dt ≤ st.ring.data.length ∧
    rmsFramesDrained st sampleRate 0 = min (st.ring.data.length / 2) 1 := by
  simp only [rmsFramesDrained, rmsDrain_length, bufSize_zero]
  omega

/-- C8: a level query that drains no frame leaves the stored RMS snapshot
unchanged and returns it (it is not reset to zero). -/
theorem c8_snapshot_preserved (st : AnalyzerState) (sampleRate : Nat) (dt : ℚ)
    (h : rmsFramesDrained st sampleRate dt = 0) :
    (rmsCall st sampleRate dt).1 = st.rms ∧
    (rmsCall st sampleRate dt).2.rms = st.rms := by
  have hl : (rmsDrain st.ring.data (bufSize dt sampleRate)).1 = [] :=
    List.length_eq_zero.mp h
  constructor <;> simp [rmsCall, hl]

/-- C8 witness: zero elapsed time on an empty analysis ring returns the
previous snapshot `(3, 4)` unchanged. -/
theorem c8_snapshot_preserved_witness :
    rmsFramesDrained ⟨⟨8, []⟩, (3, 4)⟩ 48000 0 = 0 ∧
    (rmsCall ⟨⟨8, []⟩, (3, 4)⟩ 48000 0).1 = (3, 4) ∧
    (rmsCall ⟨⟨8, []⟩, (3, 4)⟩ 48000 0).2.rms = (3, 4) :=
  ⟨rfl, c8_snapshot_preserved ⟨⟨8, []⟩, (3, 4)⟩ 48000 0 rfl⟩

/-- C9: along any interleaving of worker push iterations and consumer pops,
the sequence of samples entering the analysis ring stays a subsequence of the
sequence entering the playback ring — a sample is offered to the analysis
ring at most once, in the very iteration whose playback push succeeded — and
the analysis ring's state never influences the playback-side effect
(playback ring, pending samples, playback trace) of an iteration. -/
theorem c9_analysis_tap (st : PushState) (acts : List Action)
    (h : List.Sublist st.anaTrace st.devTrace) :
    List.Sublist (runActions st acts).anaTrace (runActions st acts).devTrace ∧
    ∀ ana' : RingBuffer,
      (stepAction { st with ana := ana' } .workIter).dev =
        (stepAction st .workIter).dev ∧
      (stepAction { st with ana := ana' } .workIter).pending =
        (stepAction st .workIter).pending ∧
      (stepAction { st with ana := ana' } .workIter).devTrace =
        (stepAction st .workIter).devTrace := by
  refine ⟨runActions_sublist acts st h, ?_⟩
  intro ana'
  cases hp : st.pending with
  | nil => simp [stepAction, hp]
  | cons s rest =>
    cases hd : st.dev.push s with
    | none => simp [stepAction, hp, hd]
    | some dev' =>
      cases ha : st.ana.push s with
      | some a2 => cases ha' : ana'.push s <;> simp [stepAction, hp, hd, ha, ha']
      | none => cases ha' : ana'.push s <;> simp [stepAction, hp, hd, ha, ha']

/-- Concrete worker state for the C9 witness: two pending samples, a playback
ring with room, an analysis ring of capacity 1. -/
def exPushState : PushState := ⟨[1, 2], ⟨2, []⟩, ⟨1, []⟩, [], []⟩

/-- C9 witness: the statement at a concrete state and schedule. -/
theorem c9_analysis_tap_witness :
    List.Sublist exPushState.anaTrace exPushState.devTrace ∧
    (List.Sublist (runActions exPushState [.workIter, .drainDev 1, .workIter]).anaTrace
      (runActions exPushState [.workIter, .drainDev 1, .workIter]).devTrace ∧
     ∀ ana' : RingBuffer,
      (stepAction { exPushState with ana := ana' } .workIter).dev =
        (stepAction exPushState .workIter).dev ∧
      (stepAction { exPushState with ana := ana' } .workIter).pending =
        (stepAction exPushState .workIter).pending ∧
      (stepAction { exPushState with ana := ana' } .workIter).devTrace =
        (stepAction exPushState .workIter).devTrace) :=
  ⟨List.nil_sublist _,
   c9_analysis_tap exPushState [.workIter, .drainDev 1, .workIter]
     (List.nil_sublist _)⟩

/-- C10: at session construction the playback ring has capacity
`2 × latency_frames × channels`, is pre-filled with exactly
`latency_frames × channels` zeros (so exactly that many slots stay free), the
analysis ring starts empty, and the first `latency_frames` frames the device
callback emits are all silence. -/
theorem c10_session_init (latencyMs deviceRate channels : Nat) :
    initDeviceRing latencyMs deviceRate channels =
      some ⟨latencySamples latencyMs deviceRate channels * 2,
        List.replicate (latencySamples latencyMs deviceRate channels) 0⟩ ∧
    latencySamples latencyMs deviceRate channels =
      latencyFrames latencyMs deviceRate * channels ∧
    (initAnalysisRing latencyMs deviceRate channels).data = [] ∧
    latencySamples latencyMs deviceRate channels * 2 -
        (List.replicate (latencySamples latencyMs deviceRate channels) (0 : ℚ)).length =
      latencyFrames latencyMs deviceRate * channels ∧
    (callbackLoop ⟨latencySamples latencyMs deviceRate channels * 2,
        List.replicate (latencySamples latencyMs deviceRate channels) 0⟩
        (latencyFrames latencyMs deviceRate)).frames =
      List.replicate (latencyFrames latencyMs deviceRate) ((0 : ℚ), (0 : ℚ)) := by
  refine ⟨?_, rfl, rfl, ?_, ?_⟩
  · exact prefill_zeros _ _ _ (by simp; omega)
  · simp only [List.length_replicate, latencySamples]
    omega
  · exact callbackLoop_zero_data _ _ _ (fun x hx => List.eq_of_mem_replicate hx)

end Time2Freq
